import Mathlib

/-!
Shallow embedding of `src/main.rs` (a vulkano/winit triangle renderer), covering
the frame-lifecycle core: the mutable loop state (`swapchain`, `framebuffers`,
`viewport`, `recreate_swapchain`, `previous_frame_end`), the per-tick algorithm
run on `MainEventsCleared` (lines 128-182), the event dispatch (lines 122-185),
and `window_size_dependent_setup` (lines 190-212).

External vulkano calls (swapchain recreation, image acquisition, fence flush)
are modelled by a per-tick environment recording their outcomes; the GPU future
chain built at lines 165-168 is modelled syntactically by `GpuFuture`.
Side effects of a tick are recorded in an ordered trace of `TickAction`s.
`f32` viewport fields carry only exact small values here (integer extents below
2^24, literal 0 and 1), so they are modelled by exact numeric types.
-/

/-- A swapchain image extent in pixels (`width, height`). -/
abbrev Extent := Nat × Nat

/-- A swapchain image handle: an identity (distinct across recreations) plus
its extent. `dimensions().width_height()` in the source reads the extent. -/
structure SwapImage where
  id : Nat
  extent : Extent
deriving DecidableEq

/-- `vulkano::pipeline::graphics::viewport::Viewport` (line 115): origin and
depth range are `f32` values that only ever hold exact integers here;
`dimensions` holds an image extent cast to `f32` (exact below 2^24). -/
structure Viewport where
  origin : Int × Int
  dimensions : Extent
  depth_range : Int × Int
deriving DecidableEq

/-- A framebuffer: the render target built from one swapchain image's
default full-image view (lines 201-209). The fixed render pass handle is
opaque and common to all framebuffers. -/
structure Framebuffer where
  view : SwapImage
deriving DecidableEq

/-- Lines 190-212, `window_size_dependent_setup`: sets
`viewport.dimensions` from `images[0]`'s extent and returns one framebuffer
per image. Returns `none` when `images` is empty (the source's `images[0]`
indexing panics there). The render pass is an opaque fixed handle. -/
def window_size_dependent_setup (images : List SwapImage) (render_pass : Unit)
    (viewport : Viewport) : Option (List Framebuffer × Viewport) :=
  match images with
  | [] => none
  | i0 :: _ =>
    some (images.map (fun image => ({ view := image } : Framebuffer)),
          { viewport with dimensions := i0.extent })

/-- The GPU future chain of lines 119 and 165-168, syntactically:
`now` is `vulkano::sync::now` (trivially satisfied), `acquire` the future
returned by `acquire_next_image`, and the rest the combinators
`join`, `then_execute`, `then_swapchain_present`, `then_signal_fence_and_flush`. -/
inductive GpuFuture
  | now
  | acquire (image_num : Nat)
  | join (a b : GpuFuture)
  | execute (pre : GpuFuture) (image_num : Nat)
  | present (pre : GpuFuture) (image_num : Nat)
  | fenced (pre : GpuFuture)
deriving DecidableEq

/-- A token is trivially satisfied exactly when it is a fresh
`vulkano::sync::now` future. -/
def GpuFuture.isTriviallySatisfied : GpuFuture → Bool
  | .now => true
  | _ => false

/-- Outcome of `swapchain.recreate` (line 132): success with the new image
chain, `SwapchainCreationError::ImageExtentNotSupported`, or any other error. -/
inductive RecreateResult
  | ok (images : List SwapImage)
  | extentNotSupported
  | err
deriving DecidableEq

/-- Outcome of `acquire_next_image` (line 145): success with the image index
and the suboptimal flag, `AcquireError::OutOfDate`, or any other error. -/
inductive AcquireResult
  | ok (image_num : Nat) (suboptimal : Bool)
  | outOfDate
  | err
deriving DecidableEq

/-- Outcome of `then_signal_fence_and_flush` (line 168): success,
`FlushError::OutOfDate` (the recoverable surface-gone error), or any other
flush error. -/
inductive FlushResult
  | ok
  | outOfDate
  | err
deriving DecidableEq

/-- The outcomes of the external platform/GPU calls a single tick can make,
together with the window's current inner size read at line 134. -/
structure TickEnv where
  window_inner_size : Extent
  recreate_result : RecreateResult
  acquire_result : AcquireResult
  flush_result : FlushResult
deriving DecidableEq

/-- The site of a `panic!`/`unwrap` abort inside a tick. -/
inductive PanicReason
  | tokenUnwrap
  | recreateFailed
  | acquireFailed
  | emptySwapchainImages
  | framebufferIndex
deriving DecidableEq

/-- Observable steps of one tick, in program order: the `cleanup_finished`
call (line 129), a `swapchain.recreate` attempt (line 132), an
`acquire_next_image` attempt (line 145), command recording against a
framebuffer (lines 156-164), the submission (`then_execute`, line 167) with
its wait-precondition, the presentation request (`then_swapchain_present`,
line 168), the error log of line 179, and a process abort. -/
inductive TickAction
  | cleanup
  | recreateAttempt (extent : Extent)
  | acquireAttempt
  | record (image_num : Nat)
  | submit (precondition : GpuFuture) (image_num : Nat)
  | present (image_num : Nat)
  | logError
  | panicked (reason : PanicReason)
deriving DecidableEq

/-- Whether an action is a submission. -/
def TickAction.isSubmit : TickAction → Bool
  | .submit _ _ => true
  | _ => false

/-- Whether an action is a presentation request. -/
def TickAction.isPresent : TickAction → Bool
  | .present _ => true
  | _ => false

/-- Whether an action is a process abort. -/
def TickAction.isPanic : TickAction → Bool
  | .panicked _ => true
  | _ => false

/-- Whether an action is a command-recording step. -/
def TickAction.isRecord : TickAction → Bool
  | .record _ => true
  | _ => false

/-- `winit::event_loop::ControlFlow` as used at lines 123 and 126. -/
inductive ControlFlow
  | poll
  | exit
deriving DecidableEq

/-- The mutable state of `main`'s event loop: the swapchain extent (its
format and handle are otherwise opaque), the framebuffers and viewport of
line 115-116, the `recreate_swapchain` flag (line 118), the pending frame
token slot (line 119), and the loop's control flow. -/
structure LoopState where
  swapchain_extent : Extent
  framebuffers : List Framebuffer
  viewport : Viewport
  recreate_swapchain : Bool
  previous_frame_end : Option GpuFuture
  control_flow : ControlFlow
deriving DecidableEq

/-- Lines 130-143: the swapchain-recreation block. Returns the state after
the block, the actions taken, and whether the tick continues (`false` on the
early `return` for `ImageExtentNotSupported` and on the `panic!` paths). -/
def recreateStep (env : TickEnv) (s : LoopState) : LoopState × List TickAction × Bool :=
  if s.recreate_swapchain then
    match env.recreate_result with
    | .extentNotSupported =>
      (s, [.recreateAttempt env.window_inner_size], false)
    | .err =>
      (s, [.recreateAttempt env.window_inner_size, .panicked .recreateFailed], false)
    | .ok new_images =>
      match window_size_dependent_setup new_images () s.viewport with
      | none =>
        (s, [.recreateAttempt env.window_inner_size, .panicked .emptySwapchainImages], false)
      | some (fbs, vp) =>
        ({ s with swapchain_extent := env.window_inner_size,
                  framebuffers := fbs, viewport := vp,
                  recreate_swapchain := false },
         [.recreateAttempt env.window_inner_size], true)
  else (s, [], true)

/-- Lines 144-182: acquire, record, submit/present chain, and the flush-result
match. `prev` is the token taken out of `previous_frame_end` at line 165;
up to that take, the slot still holds it, so the early exits (acquire
`OutOfDate`, acquire panic, framebuffer-indexing panic) leave the slot as it
was at tick start. -/
def acquireSubmitStep (env : TickEnv) (s : LoopState) (prev : GpuFuture) :
    LoopState × List TickAction :=
  match env.acquire_result with
  | .outOfDate =>
    ({ s with recreate_swapchain := true }, [.acquireAttempt])
  | .err =>
    (s, [.acquireAttempt, .panicked .acquireFailed])
  | .ok image_num suboptimal =>
    let s1 := if suboptimal then { s with recreate_swapchain := true } else s
    if image_num < s1.framebuffers.length then
      let precondition := GpuFuture.join prev (.acquire image_num)
      let actions := [TickAction.acquireAttempt, .record image_num,
                      .submit precondition image_num, .present image_num]
      match env.flush_result with
      | .ok =>
        let token := GpuFuture.fenced (.present (.execute precondition image_num) image_num)
        ({ s1 with previous_frame_end := some token }, actions)
      | .outOfDate =>
        ({ s1 with recreate_swapchain := true, previous_frame_end := some .now },
         actions)
      | .err =>
        ({ s1 with previous_frame_end := some .now },
         actions ++ [.logError])
    else
      (s1, [.acquireAttempt, .panicked .framebufferIndex])

/-- One tick: the `MainEventsCleared` arm, lines 128-182. Both unwraps of
`previous_frame_end` (line 129 and the `take().unwrap()` at line 165) panic
exactly when the slot is `none` at tick start, since nothing empties the
slot between them. -/
def tick (env : TickEnv) (s : LoopState) : LoopState × List TickAction :=
  match s.previous_frame_end with
  | none => (s, [.panicked .tokenUnwrap])
  | some prev =>
    match recreateStep env s with
    | (s1, tr1, false) => (s1, TickAction.cleanup :: tr1)
    | (s1, tr1, true) =>
      let (s2, tr2) := acquireSubmitStep env s1 prev
      (s2, TickAction.cleanup :: (tr1 ++ tr2))

/-- The events the closure at lines 122-185 distinguishes; a
`mainEventsCleared` event carries the outcomes of the tick's external calls. -/
inductive Event
  | closeRequested
  | resized (new_size : Extent)
  | mainEventsCleared (env : TickEnv)
  | other
deriving DecidableEq

/-- One invocation of the event-loop closure (lines 122-185): first
`*control_flow = ControlFlow::Poll` (line 123), then the event match. The
`Resized` payload is ignored by the source (`Resized(_)`); the close arm only
logs and sets `ControlFlow::Exit`. -/
def handle_event (event : Event) (s : LoopState) : LoopState × List TickAction :=
  let s0 := { s with control_flow := ControlFlow.poll }
  match event with
  | .closeRequested => ({ s0 with control_flow := ControlFlow.exit }, [])
  | .resized _ => ({ s0 with recreate_swapchain := true }, [])
  | .mainEventsCleared env => tick env s0
  | .other => (s0, [])

/-- Modelled from the spec: the external winit driver of `event_loop.run`
(not part of this repository's source) delivers events to the closure one at
a time and stops delivering as soon as the closure has set
`ControlFlow::Exit` — per the spec, the close request "transitions
`Running`/`AwaitingResize` → `Exiting` unconditionally" and `Exiting` is
terminal. Returns the final state and the per-event action traces. -/
def runEvents : List Event → LoopState → LoopState × List (List TickAction)
  | [], s => (s, [])
  | e :: es, s =>
    let (s1, tr) := handle_event e s
    if s1.control_flow = ControlFlow.exit then (s1, [tr])
    else
      let (s2, trs) := runEvents es s1
      (s2, tr :: trs)

/-- Lines 115-119: the initial viewport, the initial
`window_size_dependent_setup` call on the startup swapchain images, the
cleared `recreate_swapchain` flag, and the pending slot initialized to
`Some(sync::now(...))`. `none` when the startup image chain is empty. -/
def initState (sc : Extent) (images : List SwapImage) : Option LoopState :=
  let viewport : Viewport := { origin := (0, 0), dimensions := (0, 0), depth_range := (0, 1) }
  match window_size_dependent_setup images () viewport with
  | none => none
  | some (fbs, vp) =>
    some { swapchain_extent := sc, framebuffers := fbs, viewport := vp,
           recreate_swapchain := false,
           previous_frame_end := some GpuFuture.now,
           control_flow := ControlFlow.poll }

/-! ## Concrete fixtures used by witnesses and counterexamples -/

/-- A swapchain image with the given id and extent. -/
def mkImg (n : Nat) (e : Extent) : SwapImage := { id := n, extent := e }

/-- A viewport matching an 800x600 surface. -/
def vp800 : Viewport := { origin := (0, 0), dimensions := (800, 600), depth_range := (0, 1) }

/-- A loop state mid-run: 800x600 surface with two images, no pending resize,
trivially-satisfied pending token. -/
def st800 : LoopState :=
  { swapchain_extent := (800, 600),
    framebuffers := [{ view := mkImg 0 (800, 600) }, { view := mkImg 1 (800, 600) }],
    viewport := vp800,
    recreate_swapchain := false,
    previous_frame_end := some GpuFuture.now,
    control_flow := ControlFlow.poll }

/-- A tick environment where every external call succeeds. -/
def envOk : TickEnv :=
  { window_inner_size := (800, 600),
    recreate_result := .ok [mkImg 2 (800, 600), mkImg 3 (800, 600)],
    acquire_result := .ok 0 false,
    flush_result := .ok }

/-! ## Theorems -/

/-- C7: `window_size_dependent_setup` returns exactly one render target per
input image (the i-th target is built from the i-th image's view) and sets
`viewport.dimensions` to the image extent, leaving `origin` and
`depth_range` unchanged. -/
theorem c7_rebuild_targets (images : List SwapImage) (vp : Viewport)
    (fbs : List Framebuffer) (vp' : Viewport)
    (h : window_size_dependent_setup images () vp = some (fbs, vp')) :
    fbs.length = images.length ∧
    (∀ i : Nat, ∀ hi : i < fbs.length, ∀ hj : i < images.length,
      fbs[i].view = images[i]) ∧
    (∀ h0 : 0 < images.length, vp'.dimensions = images[0].extent) ∧
    vp'.origin = vp.origin ∧ vp'.depth_range = vp.depth_range := by
  cases images with
  | nil => simp [window_size_dependent_setup] at h
  | cons i0 rest =>
    simp only [window_size_dependent_setup, Option.some.injEq, Prod.mk.injEq] at h
    obtain ⟨hfbs, hvp⟩ := h
    subst hfbs
    subst hvp
    refine ⟨by simp, ?_, ?_, rfl, rfl⟩
    · intro i hi hj
      cases i with
      | zero => rfl
      | succ k => simp [List.getElem_map]
    · intro h0
      rfl

/-- C7 witness: the theorem applied to a concrete two-image chain. -/
theorem c7_rebuild_targets_witness :
    ([{ view := mkImg 0 (800, 600) }, { view := mkImg 1 (800, 600) }] :
        List Framebuffer).length = [mkImg 0 (800, 600), mkImg 1 (800, 600)].length ∧
    (∀ i : Nat,
      ∀ hi : i < ([{ view := mkImg 0 (800, 600) }, { view := mkImg 1 (800, 600) }] :
        List Framebuffer).length,
      ∀ hj : i < [mkImg 0 (800, 600), mkImg 1 (800, 600)].length,
      ([{ view := mkImg 0 (800, 600) }, { view := mkImg 1 (800, 600) }] :
        List Framebuffer)[i].view = [mkImg 0 (800, 600), mkImg 1 (800, 600)][i]) ∧
    (∀ h0 : 0 < [mkImg 0 (800, 600), mkImg 1 (800, 600)].length,
      vp800.dimensions = [mkImg 0 (800, 600), mkImg 1 (800, 600)][0].extent) ∧
    vp800.origin = vp800.origin ∧ vp800.depth_range = vp800.depth_range :=
  c7_rebuild_targets [mkImg 0 (800, 600), mkImg 1 (800, 600)] vp800 _ _ rfl

/-- Functional equivalence of render targets: built from images of the same
extent (handles may differ across recreations). -/
def Framebuffer.funEquiv (a b : Framebuffer) : Prop := a.view.extent = b.view.extent

/-- C8: recreating with the same extent twice in a row — two image chains
whose per-image extents agree — yields functionally equivalent render
targets (same count, same per-image extent), and the second rebuild leaves
`viewport.dimensions` unchanged. -/
theorem c8_resize_idempotent (images1 images2 : List SwapImage)
    (vp vp1 vp2 : Viewport) (fbs1 fbs2 : List Framebuffer)
    (hext : images1.map SwapImage.extent = images2.map SwapImage.extent)
    (h1 : window_size_dependent_setup images1 () vp = some (fbs1, vp1))
    (h2 : window_size_dependent_setup images2 () vp1 = some (fbs2, vp2)) :
    fbs1.length = fbs2.length ∧
    (∀ i : Nat, ∀ hi : i < fbs1.length, ∀ hj : i < fbs2.length,
      Framebuffer.funEquiv fbs1[i] fbs2[i]) ∧
    vp2.dimensions = vp1.dimensions := by
  cases images1 with
  | nil => simp [window_size_dependent_setup] at h1
  | cons i0 rest1 =>
    cases images2 with
    | nil => simp [window_size_dependent_setup] at h2
    | cons j0 rest2 =>
      simp only [window_size_dependent_setup, Option.some.injEq, Prod.mk.injEq] at h1 h2
      obtain ⟨hfbs1, hvp1⟩ := h1
      obtain ⟨hfbs2, hvp2⟩ := h2
      subst hfbs1
      subst hfbs2
      subst hvp1
      subst hvp2
      have hlen : (i0 :: rest1).length = (j0 :: rest2).length := by
        have := congrArg List.length hext
        simpa using this
      refine ⟨by simpa using hlen, ?_, ?_⟩
      · intro i hi hj
        have hi1 : i < ((i0 :: rest1).map SwapImage.extent).length := by simpa using hi
        have hj1 : i < ((j0 :: rest2).map SwapImage.extent).length := by simpa using hj
        have hmap : ((i0 :: rest1).map SwapImage.extent)[i] =
            ((j0 :: rest2).map SwapImage.extent)[i] := by
          congr 1
        simp only [List.getElem_map] at hmap
        cases i with
        | zero => simpa [Framebuffer.funEquiv] using hmap
        | succ k => simpa [Framebuffer.funEquiv, List.getElem_map] using hmap
      · have hl1 : 0 < ((i0 :: rest1).map SwapImage.extent).length := by simp
        have hl2 : 0 < ((j0 :: rest2).map SwapImage.extent).length := by simp
        have hmap : ((i0 :: rest1).map SwapImage.extent)[0] =
            ((j0 :: rest2).map SwapImage.extent)[0] := by
          congr 1
        have h00 : (i0 :: rest1)[0].extent = (j0 :: rest2)[0].extent := by
          simpa [List.getElem_map] using hmap
        simpa using h00.symm

/-- The two-image 400x300 chain produced by a first recreate. -/
def c8imgs1 : List SwapImage := [mkImg 0 (400, 300), mkImg 1 (400, 300)]

/-- The two-image 400x300 chain produced by a second recreate (fresh handles). -/
def c8imgs2 : List SwapImage := [mkImg 2 (400, 300), mkImg 3 (400, 300)]

/-- Render targets from the first 400x300 chain. -/
def c8fbs1 : List Framebuffer := [{ view := mkImg 0 (400, 300) }, { view := mkImg 1 (400, 300) }]

/-- Render targets from the second 400x300 chain. -/
def c8fbs2 : List Framebuffer := [{ view := mkImg 2 (400, 300) }, { view := mkImg 3 (400, 300) }]

/-- A viewport matching a 400x300 surface. -/
def vp400 : Viewport := { origin := (0, 0), dimensions := (400, 300), depth_range := (0, 1) }

/-- C8 witness: the theorem applied to two concrete 400x300 rebuilds. -/
theorem c8_resize_idempotent_witness :
    c8fbs1.length = c8fbs2.length ∧
    (∀ i : Nat, ∀ hi : i < c8fbs1.length, ∀ hj : i < c8fbs2.length,
      Framebuffer.funEquiv c8fbs1[i] c8fbs2[i]) ∧
    vp400.dimensions = vp400.dimensions :=
  c8_resize_idempotent c8imgs1 c8imgs2 vp800 vp400 vp400 c8fbs1 c8fbs2 (by decide) rfl rfl

/-! ## Characterization lemmas for the tick -/

/-- A tick whose pending-token slot is empty aborts at the line-129 unwrap. -/
theorem tick_of_none (env : TickEnv) (s : LoopState)
    (h : s.previous_frame_end = none) :
    tick env s = (s, [.panicked .tokenUnwrap]) := by
  unfold tick
  rw [h]

/-- Unfolding of a tick whose pending-token slot holds `prev`. -/
theorem tick_of_some (env : TickEnv) (s : LoopState) (prev : GpuFuture)
    (h : s.previous_frame_end = some prev) :
    tick env s =
      (if (recreateStep env s).2.2 then
        ((acquireSubmitStep env (recreateStep env s).1 prev).1,
         TickAction.cleanup ::
           ((recreateStep env s).2.1 ++ (acquireSubmitStep env (recreateStep env s).1 prev).2))
      else
        ((recreateStep env s).1, TickAction.cleanup :: (recreateStep env s).2.1)) := by
  unfold tick
  rw [h]
  rcases hr : recreateStep env s with ⟨s1, tr1, b⟩
  cases b <;> simp [hr]

/-- The recreation block does not touch the pending-token slot, and its trace
is one of four exact shapes (nothing, a bare attempt, or an attempt followed
by an abort); in particular it contains no acquire, record, submit, present
or log action. -/
theorem recreateStep_inv (env : TickEnv) (s s1 : LoopState) (tr1 : List TickAction)
    (b : Bool) (h : recreateStep env s = (s1, tr1, b)) :
    s1.previous_frame_end = s.previous_frame_end ∧
    (tr1 = [] ∨ tr1 = [.recreateAttempt env.window_inner_size] ∨
     tr1 = [.recreateAttempt env.window_inner_size, .panicked .recreateFailed] ∨
     tr1 = [.recreateAttempt env.window_inner_size, .panicked .emptySwapchainImages]) := by
  unfold recreateStep at h
  split at h
  · split at h
    · simp only [Prod.mk.injEq] at h
      obtain ⟨rfl, rfl, rfl⟩ := h
      exact ⟨rfl, by simp⟩
    · simp only [Prod.mk.injEq] at h
      obtain ⟨rfl, rfl, rfl⟩ := h
      exact ⟨rfl, by simp⟩
    · split at h
      · simp only [Prod.mk.injEq] at h
        obtain ⟨rfl, rfl, rfl⟩ := h
        exact ⟨rfl, by simp⟩
      · simp only [Prod.mk.injEq] at h
        obtain ⟨rfl, rfl, rfl⟩ := h
        exact ⟨rfl, by simp⟩
  · simp only [Prod.mk.injEq] at h
    obtain ⟨rfl, rfl, rfl⟩ := h
    exact ⟨rfl, by simp⟩

/-- With no pending resize the recreation block is a no-op. -/
theorem recreateStep_of_not_flag (env : TickEnv) (s : LoopState)
    (h : s.recreate_swapchain = false) :
    recreateStep env s = (s, [], true) := by
  simp [recreateStep, h]

/-- With a pending resize and a temporarily-unsupported extent, the tick is
aborted early, the state (resize flag included) untouched. -/
theorem recreateStep_of_extentNotSupported (env : TickEnv) (s : LoopState)
    (hf : s.recreate_swapchain = true)
    (hr : env.recreate_result = .extentNotSupported) :
    recreateStep env s = (s, [.recreateAttempt env.window_inner_size], false) := by
  simp [recreateStep, hf, hr]

/-- With a pending resize and any other recreation error, the tick aborts the
process. -/
theorem recreateStep_of_err (env : TickEnv) (s : LoopState)
    (hf : s.recreate_swapchain = true)
    (hr : env.recreate_result = .err) :
    recreateStep env s =
      (s, [.recreateAttempt env.window_inner_size, .panicked .recreateFailed], false) := by
  simp [recreateStep, hf, hr]

/-- Acquire returning `OutOfDate` sets the resize flag and aborts the tick
before recording, submission or presentation. -/
theorem acquireSubmitStep_of_outOfDate (env : TickEnv) (s : LoopState) (prev : GpuFuture)
    (ha : env.acquire_result = .outOfDate) :
    acquireSubmitStep env s prev =
      ({ s with recreate_swapchain := true }, [.acquireAttempt]) := by
  simp [acquireSubmitStep, ha]

/-- Acquire failing with any other error aborts the process. -/
theorem acquireSubmitStep_of_acquireErr (env : TickEnv) (s : LoopState) (prev : GpuFuture)
    (ha : env.acquire_result = .err) :
    acquireSubmitStep env s prev =
      (s, [.acquireAttempt, .panicked .acquireFailed]) := by
  simp [acquireSubmitStep, ha]

/-- The resize flag after the line-153 suboptimal check. -/
def LoopState.afterSuboptimal (s : LoopState) (suboptimal : Bool) : LoopState :=
  if suboptimal then { s with recreate_swapchain := true } else s

/-- The wait-precondition of the tick's submission: previous token joined
with the acquire-ready signal (lines 165-166). -/
def submitPre (prev : GpuFuture) (image_num : Nat) : GpuFuture :=
  GpuFuture.join prev (.acquire image_num)

/-- The actions of a tick that reaches submission. -/
def submitActions (prev : GpuFuture) (image_num : Nat) : List TickAction :=
  [.acquireAttempt, .record image_num,
   .submit (submitPre prev image_num) image_num, .present image_num]

/-- Successful acquire and flush: the full record/submit/present sequence
runs and the fenced chain becomes the new pending token. -/
theorem acquireSubmitStep_of_ok_flushOk (env : TickEnv) (s : LoopState) (prev : GpuFuture)
    (n : Nat) (sub : Bool)
    (ha : env.acquire_result = .ok n sub)
    (hn : n < s.framebuffers.length)
    (hf : env.flush_result = .ok) :
    acquireSubmitStep env s prev =
      ({ s.afterSuboptimal sub with
          previous_frame_end := some (.fenced (.present (.execute (submitPre prev n) n) n)) },
       submitActions prev n) := by
  cases sub <;>
    simp [acquireSubmitStep, ha, hf, hn, LoopState.afterSuboptimal, submitPre, submitActions]

/-- Successful acquire, flush fails with `FlushError::OutOfDate`: the resize
flag is set and the pending token is reset to a trivially-satisfied one. -/
theorem acquireSubmitStep_of_ok_flushOutOfDate (env : TickEnv) (s : LoopState)
    (prev : GpuFuture) (n : Nat) (sub : Bool)
    (ha : env.acquire_result = .ok n sub)
    (hn : n < s.framebuffers.length)
    (hf : env.flush_result = .outOfDate) :
    acquireSubmitStep env s prev =
      ({ s.afterSuboptimal sub with
          recreate_swapchain := true, previous_frame_end := some .now },
       submitActions prev n) := by
  cases sub <;>
    simp [acquireSubmitStep, ha, hf, hn, LoopState.afterSuboptimal, submitPre, submitActions]

/-- Successful acquire, flush fails with any other error: the error is
logged and the pending token reset; the resize flag is left as it was. -/
theorem acquireSubmitStep_of_ok_flushErr (env : TickEnv) (s : LoopState)
    (prev : GpuFuture) (n : Nat) (sub : Bool)
    (ha : env.acquire_result = .ok n sub)
    (hn : n < s.framebuffers.length)
    (hf : env.flush_result = .err) :
    acquireSubmitStep env s prev =
      ({ s.afterSuboptimal sub with previous_frame_end := some .now },
       submitActions prev n ++ [.logError]) := by
  cases sub <;>
    simp [acquireSubmitStep, ha, hf, hn, LoopState.afterSuboptimal, submitPre, submitActions]

/-- Successful acquire with an out-of-range image index aborts at the
`framebuffers[image_num]` indexing. -/
theorem acquireSubmitStep_of_badIndex (env : TickEnv) (s : LoopState)
    (prev : GpuFuture) (n : Nat) (sub : Bool)
    (ha : env.acquire_result = .ok n sub)
    (hn : ¬ n < s.framebuffers.length) :
    acquireSubmitStep env s prev =
      (s.afterSuboptimal sub, [.acquireAttempt, .panicked .framebufferIndex]) := by
  cases sub <;>
    simp [acquireSubmitStep, ha, hn, LoopState.afterSuboptimal]

/-- Every submission issued by the acquire/submit phase waits on the join of
the taken previous token with the acquire-ready signal, and at most one
submission is issued. -/
theorem acquireSubmitStep_submission (env : TickEnv) (s : LoopState) (prev : GpuFuture)
    (s2 : LoopState) (tr2 : List TickAction)
    (h : acquireSubmitStep env s prev = (s2, tr2)) :
    List.countP TickAction.isSubmit tr2 ≤ 1 ∧
    ∀ pre n, TickAction.submit pre n ∈ tr2 →
      pre = GpuFuture.join prev (GpuFuture.acquire n) := by
  cases ha : env.acquire_result with
  | outOfDate =>
    rw [acquireSubmitStep_of_outOfDate env s prev ha] at h
    injection h with h1 h2
    subst h2
    exact ⟨by simp [List.countP_cons, TickAction.isSubmit], by simp⟩
  | err =>
    rw [acquireSubmitStep_of_acquireErr env s prev ha] at h
    injection h with h1 h2
    subst h2
    exact ⟨by simp [List.countP_cons, TickAction.isSubmit], by simp⟩
  | ok n sub =>
    by_cases hn : n < s.framebuffers.length
    · have hmem : ∀ pre m, TickAction.submit pre m ∈ submitActions prev n →
          pre = GpuFuture.join prev (GpuFuture.acquire m) := by
        intro pre m hm
        simp only [submitActions, submitPre, List.mem_cons, List.mem_singleton] at hm
        rcases hm with hm | hm | hm | hm | hm
        · exact absurd hm (by simp)
        · exact absurd hm (by simp)
        · obtain ⟨h1, h2⟩ := TickAction.submit.inj hm
          subst h2
          exact h1
        · exact absurd hm (by simp)
        · simp at hm
      have hcnt : List.countP TickAction.isSubmit (submitActions prev n) ≤ 1 := by
        simp [submitActions, List.countP_cons, TickAction.isSubmit]
      cases hf : env.flush_result with
      | ok =>
        rw [acquireSubmitStep_of_ok_flushOk env s prev n sub ha hn hf] at h
        injection h with h1 h2
        subst h2
        exact ⟨hcnt, hmem⟩
      | outOfDate =>
        rw [acquireSubmitStep_of_ok_flushOutOfDate env s prev n sub ha hn hf] at h
        injection h with h1 h2
        subst h2
        exact ⟨hcnt, hmem⟩
      | err =>
        rw [acquireSubmitStep_of_ok_flushErr env s prev n sub ha hn hf] at h
        injection h with h1 h2
        subst h2
        constructor
        · simpa [List.countP_append, TickAction.isSubmit, List.countP_cons] using hcnt
        · intro pre m hm
          rw [List.mem_append] at hm
          rcases hm with hm | hm
          · exact hmem pre m hm
          · simp at hm
    · rw [acquireSubmitStep_of_badIndex env s prev n sub ha hn] at h
      injection h with h1 h2
      subst h2
      exact ⟨by simp [List.countP_cons, TickAction.isSubmit], by simp⟩

/-- C4: the pending-token slot is a single optional holder, so at most one
in-flight token exists; within any tick at most one submission is issued,
and any submission's wait-precondition is exactly the join of the tick-start
pending token with the acquire-ready signal of the acquired image — a new
submission is never issued without first joining on the unresolved previous
token. -/
theorem c4_single_flight (env : TickEnv) (s s' : LoopState) (tr : List TickAction)
    (h : tick env s = (s', tr)) :
    List.countP TickAction.isSubmit tr ≤ 1 ∧
    ∀ pre n, TickAction.submit pre n ∈ tr →
      ∃ prev, s.previous_frame_end = some prev ∧
        pre = GpuFuture.join prev (GpuFuture.acquire n) := by
  cases hpfe : s.previous_frame_end with
  | none =>
    rw [tick_of_none env s hpfe] at h
    injection h with h1 h2
    subst h2
    exact ⟨by simp [List.countP_cons, TickAction.isSubmit], by simp⟩
  | some prev =>
    rw [tick_of_some env s prev hpfe] at h
    rcases hr : recreateStep env s with ⟨s1, tr1, b⟩
    obtain ⟨hpfe1, htr1⟩ := recreateStep_inv env s s1 tr1 b hr
    rw [hr] at h
    have htr1sub : ∀ a ∈ tr1, a.isSubmit = false := by
      rcases htr1 with rfl | rfl | rfl | rfl <;> simp [TickAction.isSubmit]
    cases b with
    | false =>
      simp only [if_false, Bool.false_eq_true] at h
      injection h with h1 h2
      subst h2
      constructor
      · have : List.countP TickAction.isSubmit tr1 = 0 :=
          List.countP_eq_zero.2 (by simpa using htr1sub)
        simp [List.countP_cons, TickAction.isSubmit, this]
      · intro pre n hm
        simp only [List.mem_cons] at hm
        rcases hm with hm | hm
        · exact absurd hm (by simp)
        · have := htr1sub _ hm
          simp [TickAction.isSubmit] at this
    | true =>
      simp only [if_true] at h
      rcases hq : acquireSubmitStep env s1 prev with ⟨s2, tr2⟩
      rw [hq] at h
      injection h with h1 h2
      subst h2
      obtain ⟨hcnt2, hmem2⟩ := acquireSubmitStep_submission env s1 prev s2 tr2 hq
      constructor
      · have h0 : List.countP TickAction.isSubmit tr1 = 0 :=
          List.countP_eq_zero.2 (by simpa using htr1sub)
        simp [List.countP_cons, List.countP_append, TickAction.isSubmit, h0]
        simpa [TickAction.isSubmit] using hcnt2
      · intro pre n hm
        simp only [List.mem_cons, List.mem_append] at hm
        rcases hm with hm | hm | hm
        · exact absurd hm (by simp)
        · have := htr1sub _ hm
          simp [TickAction.isSubmit] at this
        · exact ⟨prev, rfl, hmem2 pre n hm⟩

/-- C4 witness: the theorem applied to a fully successful concrete tick. -/
theorem c4_single_flight_witness :
    List.countP TickAction.isSubmit (tick envOk st800).2 ≤ 1 ∧
    ∀ pre n, TickAction.submit pre n ∈ (tick envOk st800).2 →
      ∃ prev, st800.previous_frame_end = some prev ∧
        pre = GpuFuture.join prev (GpuFuture.acquire n) :=
  c4_single_flight envOk st800 (tick envOk st800).1 (tick envOk st800).2 rfl

/-- A recreation block that lets the tick continue emitted no abort: its
trace is empty or a single recreate attempt. -/
theorem recreateStep_continue_trace (env : TickEnv) (s s1 : LoopState)
    (tr1 : List TickAction) (h : recreateStep env s = (s1, tr1, true)) :
    tr1 = [] ∨ tr1 = [.recreateAttempt env.window_inner_size] := by
  unfold recreateStep at h
  split at h
  · split at h
    · simp only [Prod.mk.injEq] at h
      obtain ⟨h1, h2, h3⟩ := h
      simp at h3
    · simp only [Prod.mk.injEq] at h
      obtain ⟨h1, h2, h3⟩ := h
      simp at h3
    · split at h
      · simp only [Prod.mk.injEq] at h
        obtain ⟨h1, h2, h3⟩ := h
        simp at h3
      · simp only [Prod.mk.injEq] at h
        obtain ⟨h1, h2, h3⟩ := h
        subst h2
        simp
  · simp only [Prod.mk.injEq] at h
    obtain ⟨h1, h2, h3⟩ := h
    subst h2
    simp

/-- Shape of any tick that issues a submission: the pending token was taken,
the recreation block continued, acquire succeeded with an in-range index,
and the outcome of the flush decides the final pending token, the resize
flag, and whether the error log was written. -/
theorem tick_submit_shape (env : TickEnv) (s s' : LoopState) (tr : List TickAction)
    (pre : GpuFuture) (n : Nat)
    (h : tick env s = (s', tr)) (hsub : TickAction.submit pre n ∈ tr) :
    ∃ prev s1 tr1 sub,
      s.previous_frame_end = some prev ∧
      recreateStep env s = (s1, tr1, true) ∧
      (tr1 = [] ∨ tr1 = [.recreateAttempt env.window_inner_size]) ∧
      env.acquire_result = .ok n sub ∧
      n < s1.framebuffers.length ∧
      pre = submitPre prev n ∧
      ((env.flush_result = .ok ∧
          s' = { s1.afterSuboptimal sub with
                  previous_frame_end :=
                    some (.fenced (.present (.execute (submitPre prev n) n) n)) } ∧
          tr = .cleanup :: (tr1 ++ submitActions prev n)) ∨
       (env.flush_result = .outOfDate ∧
          s' = { s1.afterSuboptimal sub with
                  recreate_swapchain := true, previous_frame_end := some .now } ∧
          tr = .cleanup :: (tr1 ++ submitActions prev n)) ∨
       (env.flush_result = .err ∧
          s' = { s1.afterSuboptimal sub with previous_frame_end := some .now } ∧
          tr = .cleanup :: (tr1 ++ (submitActions prev n ++ [.logError])))) := by
  cases hpfe : s.previous_frame_end with
  | none =>
    rw [tick_of_none env s hpfe] at h
    injection h with h1 h2
    subst h2
    simp at hsub
  | some prev =>
    rw [tick_of_some env s prev hpfe] at h
    rcases hr : recreateStep env s with ⟨s1, tr1, b⟩
    rw [hr] at h
    cases b with
    | false =>
      simp only [if_false, Bool.false_eq_true] at h
      injection h with h1 h2
      subst h2
      obtain ⟨_, htr1⟩ := recreateStep_inv env s s1 tr1 false hr
      rcases htr1 with rfl | rfl | rfl | rfl <;> simp at hsub
    | true =>
      simp only [if_true] at h
      rcases hq : acquireSubmitStep env s1 prev with ⟨s2, tr2⟩
      rw [hq] at h
      injection h with h1 h2
      subst h1
      subst h2
      have htr1 := recreateStep_continue_trace env s s1 tr1 hr
      have hsub2 : TickAction.submit pre n ∈ tr2 := by
        simp only [List.mem_cons, List.mem_append] at hsub
        rcases hsub with hm | hm | hm
        · exact absurd hm (by simp)
        · rcases htr1 with rfl | rfl <;> simp at hm
        · exact hm
      cases ha : env.acquire_result with
      | outOfDate =>
        rw [acquireSubmitStep_of_outOfDate env s1 prev ha] at hq
        injection hq with hq1 hq2
        subst hq2
        simp at hsub2
      | err =>
        rw [acquireSubmitStep_of_acquireErr env s1 prev ha] at hq
        injection hq with hq1 hq2
        subst hq2
        simp at hsub2
      | ok m sub =>
        by_cases hn : m < s1.framebuffers.length
        · cases hf : env.flush_result with
          | ok =>
            rw [acquireSubmitStep_of_ok_flushOk env s1 prev m sub ha hn hf] at hq
            injection hq with hq1 hq2
            subst hq1
            subst hq2
            have hnm : pre = submitPre prev m ∧ n = m := by
              simp only [submitActions, List.mem_cons, List.mem_singleton] at hsub2
              rcases hsub2 with hm | hm | hm | hm | hm
              · exact absurd hm (by simp)
              · exact absurd hm (by simp)
              · obtain ⟨h1, h2⟩ := TickAction.submit.inj hm
                exact ⟨h1, h2⟩
              · exact absurd hm (by simp)
              · simp at hm
            obtain ⟨hpre, rfl⟩ := hnm
            exact ⟨prev, s1, tr1, sub, rfl, by simp [hr], htr1, by simp [ha], hn, hpre,
              Or.inl ⟨by simp [hf], rfl, rfl⟩⟩
          | outOfDate =>
            rw [acquireSubmitStep_of_ok_flushOutOfDate env s1 prev m sub ha hn hf] at hq
            injection hq with hq1 hq2
            subst hq1
            subst hq2
            have hnm : pre = submitPre prev m ∧ n = m := by
              simp only [submitActions, List.mem_cons, List.mem_singleton] at hsub2
              rcases hsub2 with hm | hm | hm | hm | hm
              · exact absurd hm (by simp)
              · exact absurd hm (by simp)
              · obtain ⟨h1, h2⟩ := TickAction.submit.inj hm
                exact ⟨h1, h2⟩
              · exact absurd hm (by simp)
              · simp at hm
            obtain ⟨hpre, rfl⟩ := hnm
            exact ⟨prev, s1, tr1, sub, rfl, by simp [hr], htr1, by simp [ha], hn, hpre,
              Or.inr (Or.inl ⟨by simp [hf], rfl, rfl⟩)⟩
          | err =>
            rw [acquireSubmitStep_of_ok_flushErr env s1 prev m sub ha hn hf] at hq
            injection hq with hq1 hq2
            subst hq1
            subst hq2
            have hnm : pre = submitPre prev m ∧ n = m := by
              simp only [submitActions, List.mem_append, List.mem_cons,
                List.mem_singleton] at hsub2
              rcases hsub2 with (hm | hm | hm | hm | hm) | hm
              · exact absurd hm (by simp)
              · exact absurd hm (by simp)
              · obtain ⟨h1, h2⟩ := TickAction.submit.inj hm
                exact ⟨h1, h2⟩
              · exact absurd hm (by simp)
              · simp at hm
              · simp at hm
            obtain ⟨hpre, rfl⟩ := hnm
            exact ⟨prev, s1, tr1, sub, rfl, by simp [hr], htr1, by simp [ha], hn, hpre,
              Or.inr (Or.inr ⟨by simp [hf], rfl, rfl⟩)⟩
        · rw [acquireSubmitStep_of_badIndex env s1 prev m sub ha hn] at hq
          injection hq with hq1 hq2
          subst hq2
          simp at hsub2

/-- A tick environment whose flush fails with a non-OutOfDate error. -/
def envFlushErr : TickEnv := { envOk with flush_result := .err }

/-- A tick environment whose flush fails with `FlushError::OutOfDate`. -/
def envFlushOOD : TickEnv := { envOk with flush_result := .outOfDate }

/-- C1 counterexample: on a concrete tick whose submission fails with an
error other than OutOfDate, the program does not terminate — it logs the
error and recovers by resetting the pending token (lines 178-181 `println!`
and reset; there is no `panic!` on this path). -/
theorem c1_counterexample :
    (∀ a ∈ (tick envFlushErr st800).2, a.isPanic = false) ∧
    TickAction.logError ∈ (tick envFlushErr st800).2 ∧
    (tick envFlushErr st800).1.previous_frame_end = some GpuFuture.now := by
  decide

/-- C1 (amended): for every tick in which the submission fails with an error
other than OutOfDate, the error is logged and the pending token is reset to
a trivially-satisfied token; the process does not terminate. -/
theorem c1_flush_err_logged (env : TickEnv) (s s' : LoopState) (tr : List TickAction)
    (pre : GpuFuture) (n : Nat)
    (hf : env.flush_result = .err)
    (h : tick env s = (s', tr))
    (hsub : TickAction.submit pre n ∈ tr) :
    s'.previous_frame_end = some GpuFuture.now ∧
    TickAction.logError ∈ tr ∧
    ∀ r, TickAction.panicked r ∉ tr := by
  obtain ⟨prev, s1, tr1, sub, hpfe, hr, htr1, ha, hn, hpre, hcase⟩ :=
    tick_submit_shape env s s' tr pre n h hsub
  rcases hcase with ⟨hf', _, _⟩ | ⟨hf', _, _⟩ | ⟨hf', rfl, rfl⟩
  · rw [hf] at hf'
    simp at hf'
  · rw [hf] at hf'
    simp at hf'
  · refine ⟨rfl, by simp [submitActions], ?_⟩
    intro r hmem
    rcases htr1 with rfl | rfl <;> simp [submitActions] at hmem

/-- C1 (amended) witness: the amended theorem applied to the concrete
failing tick. -/
theorem c1_flush_err_logged_witness :
    (tick envFlushErr st800).1.previous_frame_end = some GpuFuture.now ∧
    TickAction.logError ∈ (tick envFlushErr st800).2 ∧
    ∀ r, TickAction.panicked r ∉ (tick envFlushErr st800).2 :=
  c1_flush_err_logged envFlushErr st800 (tick envFlushErr st800).1
    (tick envFlushErr st800).2 (submitPre GpuFuture.now 0) 0 rfl rfl (by decide)

/-- C2: for every tick whose submission fails with `FlushError::OutOfDate`
(the surface-gone flush error), the pending token becomes trivially
satisfied, the resize flag is set, and the process does not terminate. -/
theorem c2_flush_recovery (env : TickEnv) (s s' : LoopState) (tr : List TickAction)
    (pre : GpuFuture) (n : Nat)
    (hf : env.flush_result = .outOfDate)
    (h : tick env s = (s', tr))
    (hsub : TickAction.submit pre n ∈ tr) :
    (∃ t, s'.previous_frame_end = some t ∧ t.isTriviallySatisfied = true) ∧
    s'.recreate_swapchain = true ∧
    ∀ r, TickAction.panicked r ∉ tr := by
  obtain ⟨prev, s1, tr1, sub, hpfe, hr, htr1, ha, hn, hpre, hcase⟩ :=
    tick_submit_shape env s s' tr pre n h hsub
  rcases hcase with ⟨hf', _, _⟩ | ⟨hf', rfl, rfl⟩ | ⟨hf', _, _⟩
  · rw [hf] at hf'
    simp at hf'
  · refine ⟨⟨GpuFuture.now, rfl, rfl⟩, rfl, ?_⟩
    intro r hmem
    rcases htr1 with rfl | rfl <;> simp [submitActions] at hmem
  · rw [hf] at hf'
    simp at hf'

/-- C2 witness: the theorem applied to a concrete tick with a simulated
`FlushError::OutOfDate`. -/
theorem c2_flush_recovery_witness :
    (∃ t, (tick envFlushOOD st800).1.previous_frame_end = some t ∧
      t.isTriviallySatisfied = true) ∧
    (tick envFlushOOD st800).1.recreate_swapchain = true ∧
    ∀ r, TickAction.panicked r ∉ (tick envFlushOOD st800).2 :=
  c2_flush_recovery envFlushOOD st800 (tick envFlushOOD st800).1
    (tick envFlushOOD st800).2 (submitPre GpuFuture.now 0) 0 rfl rfl (by decide)

/-- A tick environment where acquire reports the image suboptimal. -/
def envSubopt : TickEnv := { envOk with acquire_result := .ok 0 true }

/-- C6: when acquire succeeds with `suboptimal = true` (and the tick reached
the acquire with a valid image index), the resize flag is set for the next
tick, yet the current tick still records, submits and presents the acquired
image. -/
theorem c6_suboptimal_proceeds (env : TickEnv) (s s' : LoopState) (tr : List TickAction)
    (n : Nat)
    (h : tick env s = (s', tr))
    (ha : env.acquire_result = .ok n true)
    (hacq : TickAction.acquireAttempt ∈ tr)
    (hn : n < (recreateStep env s).1.framebuffers.length) :
    s'.recreate_swapchain = true ∧
    TickAction.record n ∈ tr ∧
    (∃ p, TickAction.submit p n ∈ tr) ∧
    TickAction.present n ∈ tr := by
  cases hpfe : s.previous_frame_end with
  | none =>
    rw [tick_of_none env s hpfe] at h
    injection h with h1 h2
    subst h2
    simp at hacq
  | some prev =>
    rw [tick_of_some env s prev hpfe] at h
    rcases hr : recreateStep env s with ⟨s1, tr1, b⟩
    rw [hr] at h
    rw [hr] at hn
    simp only at hn
    cases b with
    | false =>
      simp only [if_false, Bool.false_eq_true] at h
      injection h with h1 h2
      subst h2
      obtain ⟨_, htr1⟩ := recreateStep_inv env s s1 tr1 false hr
      rcases htr1 with rfl | rfl | rfl | rfl <;> simp at hacq
    | true =>
      simp only [if_true] at h
      rcases hq : acquireSubmitStep env s1 prev with ⟨s2, tr2⟩
      rw [hq] at h
      injection h with h1 h2
      subst h1
      subst h2
      have htr1 := recreateStep_continue_trace env s s1 tr1 hr
      cases hf : env.flush_result with
      | ok =>
        have heq := (acquireSubmitStep_of_ok_flushOk env s1 prev n true ha hn hf).symm.trans hq
        injection heq with e1 e2
        subst e1
        subst e2
        refine ⟨by simp [LoopState.afterSuboptimal], ?_, ⟨submitPre prev n, ?_⟩, ?_⟩ <;>
          simp [submitActions]
      | outOfDate =>
        have heq :=
          (acquireSubmitStep_of_ok_flushOutOfDate env s1 prev n true ha hn hf).symm.trans hq
        injection heq with e1 e2
        subst e1
        subst e2
        refine ⟨rfl, ?_, ⟨submitPre prev n, ?_⟩, ?_⟩ <;> simp [submitActions]
      | err =>
        have heq := (acquireSubmitStep_of_ok_flushErr env s1 prev n true ha hn hf).symm.trans hq
        injection heq with e1 e2
        subst e1
        subst e2
        refine ⟨by simp [LoopState.afterSuboptimal], ?_, ⟨submitPre prev n, ?_⟩, ?_⟩ <;>
          simp [submitActions]

/-- C6 witness: the theorem applied to a concrete suboptimal-acquire tick. -/
theorem c6_suboptimal_proceeds_witness :
    (tick envSubopt st800).1.recreate_swapchain = true ∧
    TickAction.record 0 ∈ (tick envSubopt st800).2 ∧
    (∃ p, TickAction.submit p 0 ∈ (tick envSubopt st800).2) ∧
    TickAction.present 0 ∈ (tick envSubopt st800).2 :=
  c6_suboptimal_proceeds envSubopt st800 (tick envSubopt st800).1
    (tick envSubopt st800).2 0 rfl rfl (by decide) (by decide)

/-- With a pending resize and a successful recreation over a nonempty image
chain, the state takes the new extent, targets and viewport and clears the
flag. -/
theorem recreateStep_of_ok (env : TickEnv) (s : LoopState) (imgs : List SwapImage)
    (fbs : List Framebuffer) (vp : Viewport)
    (hflag : s.recreate_swapchain = true)
    (hr : env.recreate_result = .ok imgs)
    (hs : window_size_dependent_setup imgs () s.viewport = some (fbs, vp)) :
    recreateStep env s =
      ({ s with swapchain_extent := env.window_inner_size, framebuffers := fbs,
                viewport := vp, recreate_swapchain := false },
       [.recreateAttempt env.window_inner_size], true) := by
  simp [recreateStep, hflag, hr, hs]

/-- With a pending resize and a recreation that returns an empty image
chain, the rebuild aborts at the source's `images[0]` indexing. -/
theorem recreateStep_of_ok_empty (env : TickEnv) (s : LoopState) (imgs : List SwapImage)
    (hflag : s.recreate_swapchain = true)
    (hr : env.recreate_result = .ok imgs)
    (hs : window_size_dependent_setup imgs () s.viewport = none) :
    recreateStep env s =
      (s, [.recreateAttempt env.window_inner_size, .panicked .emptySwapchainImages], false) := by
  simp [recreateStep, hflag, hr, hs]

/-- A tick entered with the resize flag set and a pending token attempts the
recreation first: its trace begins with `cleanup` then the recreate attempt,
before any acquire, record, submit or present. -/
theorem tick_recreate_first (env : TickEnv) (s : LoopState)
    (hflag : s.recreate_swapchain = true)
    (hpfe : s.previous_frame_end.isSome = true) :
    ∃ rest, (tick env s).2 =
      TickAction.cleanup :: TickAction.recreateAttempt env.window_inner_size :: rest := by
  obtain ⟨prev, hp⟩ := Option.isSome_iff_exists.mp hpfe
  rw [tick_of_some env s prev hp]
  cases hr2 : env.recreate_result with
  | extentNotSupported =>
    rw [recreateStep_of_extentNotSupported env s hflag hr2]
    exact ⟨[], rfl⟩
  | err =>
    rw [recreateStep_of_err env s hflag hr2]
    exact ⟨[.panicked .recreateFailed], rfl⟩
  | ok imgs =>
    cases hs : window_size_dependent_setup imgs () s.viewport with
    | none =>
      rw [recreateStep_of_ok_empty env s imgs hflag hr2 hs]
      exact ⟨[.panicked .emptySwapchainImages], rfl⟩
    | some p =>
      rcases p with ⟨fbs, vp⟩
      rw [recreateStep_of_ok env s imgs fbs vp hflag hr2 hs]
      exact ⟨_, rfl⟩

/-- A tick environment whose acquire reports `OutOfDate`. -/
def envAcqOOD : TickEnv := { envOk with acquire_result := .outOfDate }

/-- C3: a tick in which acquire returns `OutOfDate` sets the resize flag,
records nothing, submits nothing and presents nothing, and leaves the
pending token untouched; the next tick attempts the surface recreation
before anything else (in particular before any acquire). -/
theorem c3_out_of_date_recovery (env env' : TickEnv) (s s' : LoopState)
    (tr : List TickAction)
    (h : tick env s = (s', tr))
    (ha : env.acquire_result = .outOfDate)
    (hacq : TickAction.acquireAttempt ∈ tr) :
    s'.recreate_swapchain = true ∧
    (∀ m, TickAction.record m ∉ tr) ∧
    (∀ p m, TickAction.submit p m ∉ tr) ∧
    (∀ m, TickAction.present m ∉ tr) ∧
    s'.previous_frame_end = s.previous_frame_end ∧
    ∃ rest, (tick env' s').2 =
      TickAction.cleanup :: TickAction.recreateAttempt env'.window_inner_size :: rest := by
  cases hpfe : s.previous_frame_end with
  | none =>
    rw [tick_of_none env s hpfe] at h
    injection h with h1 h2
    subst h2
    simp at hacq
  | some prev =>
    rw [tick_of_some env s prev hpfe] at h
    rcases hr : recreateStep env s with ⟨s1, tr1, b⟩
    rw [hr] at h
    obtain ⟨hpfe1, _⟩ := recreateStep_inv env s s1 tr1 b hr
    cases b with
    | false =>
      simp only [if_false, Bool.false_eq_true] at h
      injection h with h1 h2
      subst h2
      obtain ⟨_, htr1⟩ := recreateStep_inv env s s1 tr1 false hr
      rcases htr1 with rfl | rfl | rfl | rfl <;> simp at hacq
    | true =>
      simp only [if_true] at h
      rcases hq : acquireSubmitStep env s1 prev with ⟨s2, tr2⟩
      rw [hq] at h
      injection h with h1 h2
      subst h1
      subst h2
      have heq := (acquireSubmitStep_of_outOfDate env s1 prev ha).symm.trans hq
      injection heq with e1 e2
      subst e1
      subst e2
      have htr1 := recreateStep_continue_trace env s s1 tr1 hr
      have hpfe' : s1.previous_frame_end = some prev := by rw [hpfe1]; exact hpfe
      refine ⟨rfl, ?_, ?_, ?_, by simp [hpfe1, hpfe], ?_⟩
      · intro m hmem
        rcases htr1 with rfl | rfl <;> simp at hmem
      · intro p m hmem
        rcases htr1 with rfl | rfl <;> simp at hmem
      · intro m hmem
        rcases htr1 with rfl | rfl <;> simp at hmem
      · exact tick_recreate_first env' _ rfl (by simp [hpfe'])

/-- C3 witness: the theorem applied to a concrete `OutOfDate` acquire. -/
theorem c3_out_of_date_recovery_witness :
    (tick envAcqOOD st800).1.recreate_swapchain = true ∧
    (∀ m, TickAction.record m ∉ (tick envAcqOOD st800).2) ∧
    (∀ p m, TickAction.submit p m ∉ (tick envAcqOOD st800).2) ∧
    (∀ m, TickAction.present m ∉ (tick envAcqOOD st800).2) ∧
    (tick envAcqOOD st800).1.previous_frame_end = st800.previous_frame_end ∧
    ∃ rest, (tick envOk (tick envAcqOOD st800).1).2 =
      TickAction.cleanup :: TickAction.recreateAttempt envOk.window_inner_size :: rest :=
  c3_out_of_date_recovery envAcqOOD envOk st800 (tick envAcqOOD st800).1
    (tick envAcqOOD st800).2 rfl rfl (by decide)

/-- A loop state awaiting a resize (flag set). -/
def st800r : LoopState := { st800 with recreate_swapchain := true }

/-- A tick environment where recreation reports the extent unsupported. -/
def envExtentNS : TickEnv := { envOk with recreate_result := .extentNotSupported }

/-- C5: a tick whose recreation fails with `ImageExtentNotSupported` aborts
early — no acquire, no submission, no present — leaves the whole state (the
set resize flag included) unchanged so the recreate is retried next tick,
and does not terminate; any other recreation failure terminates the
process. -/
theorem c5_extent_unsupported_retry (env : TickEnv) (s s' : LoopState)
    (tr : List TickAction) (prev : GpuFuture)
    (hpfe : s.previous_frame_end = some prev)
    (hflag : s.recreate_swapchain = true)
    (h : tick env s = (s', tr)) :
    (env.recreate_result = .extentNotSupported →
      s' = s ∧ s'.recreate_swapchain = true ∧
      TickAction.acquireAttempt ∉ tr ∧
      (∀ p m, TickAction.submit p m ∉ tr) ∧
      (∀ m, TickAction.present m ∉ tr) ∧
      (∀ r, TickAction.panicked r ∉ tr)) ∧
    (env.recreate_result = .err →
      TickAction.panicked .recreateFailed ∈ tr) := by
  rw [tick_of_some env s prev hpfe] at h
  constructor
  · intro hr2
    rw [recreateStep_of_extentNotSupported env s hflag hr2] at h
    injection h with h1 h2
    subst h1
    subst h2
    exact ⟨rfl, hflag, by simp, by simp, by simp, by simp⟩
  · intro hr2
    rw [recreateStep_of_err env s hflag hr2] at h
    injection h with h1 h2
    subst h2
    simp

/-- C5 witness: the theorem applied to a concrete awaiting-resize tick whose
recreation reports the extent unsupported. -/
theorem c5_extent_unsupported_retry_witness :
    (envExtentNS.recreate_result = .extentNotSupported →
      (tick envExtentNS st800r).1 = st800r ∧
      (tick envExtentNS st800r).1.recreate_swapchain = true ∧
      TickAction.acquireAttempt ∉ (tick envExtentNS st800r).2 ∧
      (∀ p m, TickAction.submit p m ∉ (tick envExtentNS st800r).2) ∧
      (∀ m, TickAction.present m ∉ (tick envExtentNS st800r).2) ∧
      (∀ r, TickAction.panicked r ∉ (tick envExtentNS st800r).2)) ∧
    (envExtentNS.recreate_result = .err →
      TickAction.panicked .recreateFailed ∈ (tick envExtentNS st800r).2) :=
  c5_extent_unsupported_retry envExtentNS st800r (tick envExtentNS st800r).1
    (tick envExtentNS st800r).2 GpuFuture.now rfl rfl rfl

/-- C9: a close request entering the dispatch — at whatever point of the
loop it arrives, `Running` (flag clear) or `AwaitingResize` (flag set) —
performs none of the tick's steps: the loop transitions unconditionally to
`ControlFlow::Exit`, no submission or presentation is ever issued from the
close request on, and no further events are processed. -/
theorem c9_close_preemption (es : List Event) (s s' : LoopState)
    (trs : List (List TickAction))
    (h : runEvents (Event.closeRequested :: es) s = (s', trs)) :
    s'.control_flow = ControlFlow.exit ∧
    ∀ tr ∈ trs, ∀ a ∈ tr, a.isSubmit = false ∧ a.isPresent = false := by
  have hrun : runEvents (Event.closeRequested :: es) s =
      ({ s with control_flow := ControlFlow.exit }, [[]]) := rfl
  rw [hrun] at h
  injection h with h1 h2
  subst h1
  subst h2
  refine ⟨rfl, ?_⟩
  intro tr htr a ha
  simp only [List.mem_singleton] at htr
  subst htr
  simp at ha

/-- C9 witness: a close request followed by a queued tick event; the tick is
never processed. -/
theorem c9_close_preemption_witness :
    (runEvents [Event.closeRequested, Event.mainEventsCleared envOk] st800).1.control_flow =
      ControlFlow.exit ∧
    ∀ tr ∈ (runEvents [Event.closeRequested, Event.mainEventsCleared envOk] st800).2,
      ∀ a ∈ tr, a.isSubmit = false ∧ a.isPresent = false :=
  c9_close_preemption [Event.mainEventsCleared envOk] st800
    (runEvents [Event.closeRequested, Event.mainEventsCleared envOk] st800).1
    (runEvents [Event.closeRequested, Event.mainEventsCleared envOk] st800).2 rfl

/-- The acquire/submit phase either leaves the pending-token slot alone or
refills it, and never aborts at a token unwrap. -/
theorem acquireSubmitStep_token (env : TickEnv) (s : LoopState) (prev : GpuFuture)
    (s2 : LoopState) (tr2 : List TickAction)
    (h : acquireSubmitStep env s prev = (s2, tr2)) :
    (s2.previous_frame_end = s.previous_frame_end ∨
      s2.previous_frame_end.isSome = true) ∧
    TickAction.panicked .tokenUnwrap ∉ tr2 := by
  cases ha : env.acquire_result with
  | outOfDate =>
    rw [acquireSubmitStep_of_outOfDate env s prev ha] at h
    injection h with h1 h2
    subst h1
    subst h2
    exact ⟨Or.inl rfl, by simp⟩
  | err =>
    rw [acquireSubmitStep_of_acquireErr env s prev ha] at h
    injection h with h1 h2
    subst h1
    subst h2
    exact ⟨Or.inl rfl, by simp⟩
  | ok n sub =>
    by_cases hn : n < s.framebuffers.length
    · cases hf : env.flush_result with
      | ok =>
        rw [acquireSubmitStep_of_ok_flushOk env s prev n sub ha hn hf] at h
        injection h with h1 h2
        subst h1
        subst h2
        exact ⟨Or.inr rfl, by simp [submitActions]⟩
      | outOfDate =>
        rw [acquireSubmitStep_of_ok_flushOutOfDate env s prev n sub ha hn hf] at h
        injection h with h1 h2
        subst h1
        subst h2
        exact ⟨Or.inr rfl, by simp [submitActions]⟩
      | err =>
        rw [acquireSubmitStep_of_ok_flushErr env s prev n sub ha hn hf] at h
        injection h with h1 h2
        subst h1
        subst h2
        exact ⟨Or.inr rfl, by simp [submitActions]⟩
    · rw [acquireSubmitStep_of_badIndex env s prev n sub ha hn] at h
      injection h with h1 h2
      subst h1
      subst h2
      refine ⟨Or.inl ?_, by simp⟩
      cases sub <;> simp [LoopState.afterSuboptimal]

/-- A tick started with a pending token ends with a pending token, and never
aborts at a token unwrap. -/
theorem tick_token (env : TickEnv) (s s' : LoopState) (tr : List TickAction)
    (hs : s.previous_frame_end.isSome = true)
    (h : tick env s = (s', tr)) :
    s'.previous_frame_end.isSome = true ∧
    TickAction.panicked .tokenUnwrap ∉ tr := by
  obtain ⟨prev, hp⟩ := Option.isSome_iff_exists.mp hs
  rw [tick_of_some env s prev hp] at h
  rcases hr : recreateStep env s with ⟨s1, tr1, b⟩
  rw [hr] at h
  obtain ⟨hpfe1, htr1⟩ := recreateStep_inv env s s1 tr1 b hr
  have htr1u : TickAction.panicked .tokenUnwrap ∉ tr1 := by
    rcases htr1 with rfl | rfl | rfl | rfl <;> simp
  cases b with
  | false =>
    simp only [if_false, Bool.false_eq_true] at h
    injection h with h1 h2
    subst h1
    subst h2
    exact ⟨by simp [hpfe1, hp], by simp [htr1u]⟩
  | true =>
    simp only [if_true] at h
    rcases hq : acquireSubmitStep env s1 prev with ⟨s2, tr2⟩
    rw [hq] at h
    injection h with h1 h2
    subst h1
    subst h2
    obtain ⟨ht, hnu⟩ := acquireSubmitStep_token env s1 prev s2 tr2 hq
    constructor
    · rcases ht with he | hi
      · simp [he, hpfe1, hp]
      · exact hi
    · simp [htr1u, hnu]

/-- One event dispatch preserves the pending token and never aborts at a
token unwrap. -/
theorem handle_event_token (e : Event) (s s' : LoopState) (tr : List TickAction)
    (hs : s.previous_frame_end.isSome = true)
    (h : handle_event e s = (s', tr)) :
    s'.previous_frame_end.isSome = true ∧
    TickAction.panicked .tokenUnwrap ∉ tr := by
  cases e with
  | closeRequested =>
    unfold handle_event at h
    injection h with h1 h2
    subst h1
    subst h2
    exact ⟨hs, by simp⟩
  | resized sz =>
    unfold handle_event at h
    injection h with h1 h2
    subst h1
    subst h2
    exact ⟨hs, by simp⟩
  | mainEventsCleared env =>
    unfold handle_event at h
    exact tick_token env { s with control_flow := ControlFlow.poll } s' tr hs h
  | other =>
    unfold handle_event at h
    injection h with h1 h2
    subst h1
    subst h2
    exact ⟨hs, by simp⟩

/-- Along any run of the event loop from a state with a pending token, the
token slot stays filled and no token unwrap ever aborts. -/
theorem runEvents_token (es : List Event) :
    ∀ s : LoopState, s.previous_frame_end.isSome = true →
      (runEvents es s).1.previous_frame_end.isSome = true ∧
      ∀ tr ∈ (runEvents es s).2, TickAction.panicked .tokenUnwrap ∉ tr := by
  induction es with
  | nil =>
    intro s hs
    exact ⟨hs, by simp [runEvents]⟩
  | cons e es ih =>
    intro s hs
    rcases hh : handle_event e s with ⟨s1, tr⟩
    obtain ⟨h1, h2⟩ := handle_event_token e s s1 tr hs hh
    by_cases hc : s1.control_flow = ControlFlow.exit
    · have hrun : runEvents (e :: es) s = (s1, [tr]) := by
        simp [runEvents, hh, hc]
      rw [hrun]
      refine ⟨h1, ?_⟩
      intro tr' htr'
      simp only [List.mem_singleton] at htr'
      subst htr'
      exact h2
    · rcases hrr : runEvents es s1 with ⟨s2, trs⟩
      have hrun : runEvents (e :: es) s = (s2, tr :: trs) := by
        simp [runEvents, hh, hc, hrr]
      rw [hrun]
      obtain ⟨g1, g2⟩ := ih s1 h1
      rw [hrr] at g1 g2
      refine ⟨g1, ?_⟩
      intro tr' htr'
      rcases List.mem_cons.mp htr' with rfl | htr'
      · exact h2
      · exact g2 tr' htr'

/-- C10: from any startup state (pending token initialized to
`Some(sync::now(...))` at line 119), every run of the loop keeps
`previous_frame_end` holding `Some` at every tick boundary, so the
line-129 unwrap and the line-165 `take().unwrap()` never panic. -/
theorem c10_pending_token_total (es : List Event) (sc : Extent)
    (images : List SwapImage) (s0 : LoopState)
    (hinit : initState sc images = some s0) :
    (runEvents es s0).1.previous_frame_end.isSome = true ∧
    ∀ tr ∈ (runEvents es s0).2, TickAction.panicked .tokenUnwrap ∉ tr := by
  have h0 : s0.previous_frame_end.isSome = true := by
    cases images with
    | nil => simp [initState, window_size_dependent_setup] at hinit
    | cons i0 rest =>
      simp only [initState, window_size_dependent_setup, Option.some.injEq] at hinit
      subst hinit
      rfl
  exact runEvents_token es s0 h0

/-- The startup image chain used in witnesses. -/
def initImgs : List SwapImage := [mkImg 0 (800, 600), mkImg 1 (800, 600)]

/-- C10 witness: the theorem applied to a concrete startup state and a
one-tick run. -/
theorem c10_pending_token_total_witness :
    (runEvents [Event.mainEventsCleared envOk] st800).1.previous_frame_end.isSome = true ∧
    ∀ tr ∈ (runEvents [Event.mainEventsCleared envOk] st800).2,
      TickAction.panicked .tokenUnwrap ∉ tr :=
  c10_pending_token_total [Event.mainEventsCleared envOk] (800, 600) initImgs st800 rfl
